import Mathlib

/-!
# Verification of the lab-test extraction service (`src/main.py`)

A shallow embedding of the extraction pipeline of the repository:

* `extract_lab_tests` (source lines 39-77): two regular-expression pattern
  families applied to every recognized text line via `re.findall`, each match
  yielding a `LabTest` record.
* the `/get-lab-tests` request handler (source lines 145-167): runs
  preprocess → OCR → extract and wraps the result or any raised exception in
  a JSON envelope.

Modelling conventions:

* Python regular-expression matching for the two concrete patterns of the
  source is embedded as a backtracking matcher over a token list
  (character-class runs, literals, a greedy optional group), with `re.findall`
  scan semantics: leftmost match, greedy quantifiers with full backtracking,
  resume after each match.  `\s` and `str.strip` are modelled on the ASCII
  whitespace characters.
* Python `float(...)` is modelled exactly, as an exact decimal value
  (`PyFloat`: a natural mantissa and a power-of-ten exponent, with its
  rational value available as `PyFloat.toRat`), on unsigned decimal literals
  (strings over digits and `.`) — the only strings the extractor ever passes
  to it; on every other string of that alphabet (no digit, or more than one
  dot) it fails, as `float` does.  Python's `ValueError` propagating out of
  `extract_lab_tests` is modelled by `Except.error`.
* The rendering `f"{x}"` of a parsed float is modelled as the shortest exact
  decimal rendering of the rational, with at least one fractional digit —
  which is Python's `repr` on every float whose shortest round-trip decimal
  is its exact value (all realistic lab-report numbers).
* `cv2` and `easyocr` are external capabilities; the handler model takes them
  as abstract fallible functions.
-/

/-- The ASCII whitespace characters matched by the regex class `\s` and
stripped by `str.strip()`. -/
def pySpace (c : Char) : Bool :=
  c = ' ' || c = '\t' || c = '\n' || c = '\x0d' || c = '\x0b' || c = '\x0c'

/-- The character class `[A-Za-z\s\(\)]` of the name group. -/
def nameClass (c : Char) : Bool :=
  c.isAlpha || pySpace c || c = '(' || c = ')'

/-- The character class `[0-9\.]` of the value, min and max groups. -/
def numClass (c : Char) : Bool :=
  c.isDigit || c = '.'

/-- The character class `[a-zA-Z/%]` of the unit group. -/
def unitClass (c : Char) : Bool :=
  c.isAlpha || c = '/' || c = '%'

/-- One token of the source's regular expressions: a literal character, a
non-capturing greedy `[class]*` or `[class]+`, a capturing greedy
`([class]+)`, or a capturing greedy optional `([class]+)?`. -/
inductive Tok where
  | lit (c : Char)
  | star (p : Char → Bool)
  | plus (p : Char → Bool)
  | group (p : Char → Bool)
  | optGroup (p : Char → Bool)

/-- The ways a single token can consume a prefix of `s`, in the order a
backtracking engine tries them (greedy: longest first; an optional group
tries participating before not participating).  Each candidate is the
captured text (`none` for non-capturing tokens) and the remaining input.
`re.findall` reports a non-participating optional group as `""`. -/
def candidates : Tok → List Char → List (Option String × List Char)
  | .lit _, [] => []
  | .lit c, x :: s => if x = c then [(none, s)] else []
  | .star p, s =>
      let n := (s.takeWhile p).length
      ((List.range (n + 1)).reverse).map (fun k => (none, s.drop k))
  | .plus p, s =>
      let n := (s.takeWhile p).length
      ((List.range' 1 n).reverse).map (fun k => (none, s.drop k))
  | .group p, s =>
      let n := (s.takeWhile p).length
      ((List.range' 1 n).reverse).map (fun k => (some (s.take k).asString, s.drop k))
  | .optGroup p, s =>
      let n := (s.takeWhile p).length
      (((List.range' 1 n).reverse).map (fun k => (some (s.take k).asString, s.drop k)))
        ++ [(some "", s)]

/-- Try the candidate list in order, committing to the first one after which
the rest of the pattern matches; collect captures in group order. -/
def tryCands (next : List Char → Option (List String × List Char)) :
    List (Option String × List Char) → Option (List String × List Char)
  | [] => none
  | (cap, rest) :: cs =>
      match next rest with
      | some (gs, fin) =>
          some ((match cap with | some g => g :: gs | none => gs), fin)
      | none => tryCands next cs

/-- Backtracking match of a token list at the start of the input, returning
the captured groups in order and the input remaining after the match —
Python `re` semantics for patterns built from the tokens above. -/
def matchToks : List Tok → List Char → Option (List String × List Char)
  | [], s => some ([], s)
  | t :: ts, s => tryCands (fun r => matchToks ts r) (candidates t s)

/-- `re.findall` scan over the input: try to match at each position from the
left; on a match, record the groups and resume after the matched text (after
one further character if the match was empty); on failure advance one
character. -/
def findAllAux (toks : List Tok) : Nat → List Char → List (List String)
  | 0, _ => []
  | fuel + 1, [] =>
      match matchToks toks [] with
      | some (gs, _) => [gs]
      | none => []
  | fuel + 1, c :: s' =>
      match matchToks toks (c :: s') with
      | some (gs, rest) =>
          if rest.length < s'.length + 1 then gs :: findAllAux toks fuel rest
          else gs :: findAllAux toks fuel s'
      | none => findAllAux toks fuel s'

/-- `re.findall(pattern, line)` for a pattern given as a token list.  The
fuel `length + 1` always suffices: every recursive step of the scan strictly
shortens the remaining suffix. -/
def pyFindAll (toks : List Tok) (line : String) : List (List String) :=
  findAllAux toks (line.toList.length + 1) line.toList

/-- Source line 43, the colon pattern family:
`([A-Za-z\s\(\)]+):\s*([0-9\.]+)\s*([a-zA-Z/%]+)?\s*\(([0-9\.]+)\s*-\s*([0-9\.]+)\)`. -/
def pattern1 : List Tok :=
  [ .group nameClass, .lit ':', .star pySpace, .group numClass, .star pySpace,
    .optGroup unitClass, .star pySpace, .lit '(', .group numClass,
    .star pySpace, .lit '-', .star pySpace, .group numClass, .lit ')' ]

/-- Source line 45, the spaced pattern family:
`([A-Za-z\s\(\)]+)\s+([0-9\.]+)\s+([a-zA-Z/%]+)\s+([0-9\.]+)\s*-\s*([0-9\.]+)`. -/
def pattern2 : List Tok :=
  [ .group nameClass, .plus pySpace, .group numClass, .plus pySpace,
    .group unitClass, .plus pySpace, .group numClass, .star pySpace,
    .lit '-', .star pySpace, .group numClass ]

/-- Source lines 42-46: the two pattern families, in the order tried. -/
def patterns : List (List Tok) := [pattern1, pattern2]

/-- Python `str.strip()`: drop leading and trailing whitespace. -/
def pyStrip (s : String) : String :=
  (((s.toList.dropWhile pySpace).reverse.dropWhile pySpace).reverse).asString

/-- The value of a digit string. -/
def digitsToNat (cs : List Char) : Nat :=
  cs.foldl (fun a c => 10 * a + (c.toNat - '0'.toNat)) 0

/-- Split a character list at every dot (the parts between the dots, in
order; `n` dots yield `n + 1` parts). -/
def splitDots : List Char → List (List Char)
  | [] => [[]]
  | c :: rest =>
      if c = '.' then [] :: splitDots rest
      else
        match splitDots rest with
        | [] => [[c]]
        | h :: t => (c :: h) :: t

/-- A Python float as the extractor produces one: the exact non-negative
decimal value `mant / 10 ^ exp` parsed from an unsigned decimal literal.
Every numeric literal the extractor parses is exactly representable this
way, and comparisons and rendering on such values are the exact-value
semantics of the corresponding `float` operations. -/
structure PyFloat where
  mant : Nat
  exp : Nat
  deriving DecidableEq, Repr

/-- The rational value of the float. -/
def PyFloat.toRat (x : PyFloat) : ℚ := (x.mant : ℚ) / 10 ^ x.exp

/-- The numeric order on the parsed floats (`<` of Python), by
cross-multiplication. -/
def PyFloat.lt (a b : PyFloat) : Bool :=
  a.mant * 10 ^ b.exp < b.mant * 10 ^ a.exp

/-- Python `float(s)` on strings over digits and `.` (the only strings the
extractor passes to it): it succeeds exactly when the string has at most one
dot and at least one digit. -/
def pyFloat? (s : String) : Option PyFloat :=
  match splitDots s.toList with
  | [ds] =>
      if ds ≠ [] ∧ ds.all Char.isDigit then
        some ⟨digitsToNat ds, 0⟩
      else none
  | [ip, fp] =>
      if (ip ≠ [] ∨ fp ≠ []) ∧ ip.all Char.isDigit ∧ fp.all Char.isDigit then
        some ⟨digitsToNat ip * 10 ^ fp.length + digitsToNat fp, fp.length⟩
      else none
  | _ => none

/-- Remove trailing decimal zeros: the shortest exact representation
`(mant, exp)` of the same value with `mant` not divisible by 10 unless
`exp = 0`. -/
def trimZeros : Nat → Nat → Nat × Nat
  | m, 0 => (m, 0)
  | m, e + 1 => if m % 10 = 0 then trimZeros (m / 10) e else (m, e + 1)

/-- Left-pad a string with zeros to length `k`. -/
def padZeros (k : Nat) (s : String) : String :=
  (List.replicate (k - s.length) '0').asString ++ s

/-- Python `f"{x}"` on a float holding an exact non-negative decimal value:
the shortest exact decimal rendering, with at least one fractional digit
(`70.0`, `4.5`). -/
def pyFloatRepr (x : PyFloat) : String :=
  match trimZeros x.mant x.exp with
  | (m, 0) => toString m ++ ".0"
  | (m, e) => toString (m / 10 ^ e) ++ "." ++ padZeros e (toString (m % 10 ^ e))

/-- Source lines 11-16: the record produced for each pattern match. -/
structure LabTest where
  test_name : String
  test_value : String
  bio_reference_range : String
  test_unit : String
  lab_test_out_of_range : Bool
  deriving DecidableEq, Repr

/-- Source lines 52-75, the body of the innermost loop: build one `LabTest`
from one match (the list of its five captured groups).  The unguarded
`float(...)` on the min and max captures can raise — modelled by
`Except.error`; the `float(test_value)` comparison is guarded by
`try/except ValueError`, a parse failure there yielding `False`. -/
def processMatch (m : List String) : Except String LabTest :=
  match m with
  | [g0, g1, g2, g3, g4] =>
      let test_name := pyStrip g0
      let test_value := pyStrip g1
      let test_unit := if g2 = "" then "" else pyStrip g2
      match pyFloat? (pyStrip g3) with
      | none => .error ("could not convert string to float: " ++ pyStrip g3)
      | some min_range =>
          match pyFloat? (pyStrip g4) with
          | none => .error ("could not convert string to float: " ++ pyStrip g4)
          | some max_range =>
              let bio_reference_range := pyFloatRepr min_range ++ "-" ++ pyFloatRepr max_range
              let lab_test_out_of_range :=
                match pyFloat? test_value with
                | some value_float => value_float.lt min_range || max_range.lt value_float
                | none => false
              .ok { test_name := test_name, test_value := test_value,
                    bio_reference_range := bio_reference_range,
                    test_unit := test_unit,
                    lab_test_out_of_range := lab_test_out_of_range }
  | _ => .error "internal: findall returned a tuple of the wrong arity"

/-- Source line 51: the loop `for match in matches`, appending one record per
match; an exception aborts the whole extraction. -/
def processMatches : List (List String) → Except String (List LabTest)
  | [] => .ok []
  | m :: ms =>
      match processMatch m with
      | .error e => .error e
      | .ok t =>
          match processMatches ms with
          | .error e => .error e
          | .ok ts => .ok (t :: ts)

/-- Source lines 49-50: the loop `for pattern in patterns` over one line,
running `re.findall` for each pattern family in order and appending. -/
def extractPatterns : List (List Tok) → String → Except String (List LabTest)
  | [], _ => .ok []
  | p :: ps, line =>
      match processMatches (pyFindAll p line) with
      | .error e => .error e
      | .ok a =>
          match extractPatterns ps line with
          | .error e => .error e
          | .ok b => .ok (a ++ b)

/-- Source lines 39-77, `extract_lab_tests`: the outer loop over the
recognized text lines, in input order. -/
def extract_lab_tests : List String → Except String (List LabTest)
  | [] => .ok []
  | line :: rest =>
      match extractPatterns patterns line with
      | .error e => .error e
      | .ok a =>
          match extract_lab_tests rest with
          | .error e => .error e
          | .ok b => .ok (a ++ b)

/-- The JSON envelope returned by `/get-lab-tests`: the success envelope
(source lines 154-158, serialized with `is_success: true` and the
`recognized_text` and `data` fields) or the failure envelope (source lines
161-167, serialized with `is_success: false` and only the `error` field —
carrying no partial results by construction). -/
inductive ApiBody where
  | success (recognized_text : List String) (data : List LabTest)
  | failure (error : String)
  deriving DecidableEq, Repr

/-- An HTTP response: status code and JSON body. -/
structure ApiResponse where
  status_code : Nat
  body : ApiBody
  deriving DecidableEq, Repr

/-- Modelled from the spec: the Image Preprocessor "Fails with `DecodeError`
if bytes are not a valid image (decoding returns no data)".  In the code the
external `cv2.imdecode` returns no data and the next `cv2` call raises; the
raised message is opaque external text, modelled as this fixed non-empty
string. -/
def decodeErrorMsg : String := "DecodeError: uploaded bytes are not a decodable image"

/-- Source lines 22-37, `preprocess_image`, with the external `cv2` image
operations abstracted: `imdecode` (line 26, `none` when the bytes are not a
valid image — in which case the pipeline raises), grayscale conversion
(line 28), adaptive thresholding (line 31) and morphological opening
(line 35). -/
def preprocess_image {Img : Type} (imdecode : List Nat → Option Img)
    (cvtColor adaptiveThreshold morphologyEx : Img → Img)
    (image_bytes : List Nat) : Except String Img :=
  match imdecode image_bytes with
  | none => .error decodeErrorMsg
  | some img => .ok (morphologyEx (adaptiveThreshold (cvtColor img)))

/-- Source lines 148-153: the pipeline inside the handler's `try` block —
preprocess, then the external OCR `reader.readtext` (abstracted as a
fallible function), then `extract_lab_tests`; a raised exception anywhere is
`Except.error` with the exception's message. -/
def runPipeline {Img : Type} (imdecode : List Nat → Option Img)
    (cvtColor adaptiveThreshold morphologyEx : Img → Img)
    (readtext : Img → Except String (List String))
    (contents : List Nat) : Except String (List String × List LabTest) :=
  match preprocess_image imdecode cvtColor adaptiveThreshold morphologyEx contents with
  | .error e => .error e
  | .ok processed_img =>
      match readtext processed_img with
      | .error e => .error e
      | .ok results =>
          match extract_lab_tests results with
          | .error e => .error e
          | .ok lab_tests => .ok (results, lab_tests)

/-- Source lines 145-167, the `/get-lab-tests` handler: a successful pipeline
yields HTTP 200 with the success envelope; any exception raised in the
pipeline is caught by the `except` clause and yields HTTP 500 with the
failure envelope carrying the exception's message. -/
def get_lab_tests {Img : Type} (imdecode : List Nat → Option Img)
    (cvtColor adaptiveThreshold morphologyEx : Img → Img)
    (readtext : Img → Except String (List String))
    (contents : List Nat) : ApiResponse :=
  match runPipeline imdecode cvtColor adaptiveThreshold morphologyEx readtext contents with
  | .ok (results, lab_tests) =>
      { status_code := 200, body := .success results lab_tests }
  | .error e =>
      { status_code := 500, body := .failure e }

/-! ## Invariants of the matcher's captured groups -/

/-- The structural invariant of one match's captured groups: one capture per
capturing token in order; a `group` capture is a non-empty run of its class;
an `optGroup` capture is a possibly empty run of its class. -/
def capsOK : List Tok → List String → Prop
  | [], gs => gs = []
  | .lit _ :: ts, gs => capsOK ts gs
  | .star _ :: ts, gs => capsOK ts gs
  | .plus _ :: ts, gs => capsOK ts gs
  | .group p :: ts, gs =>
      ∃ g gs', gs = g :: gs' ∧ g ≠ "" ∧ g.toList.all p ∧ capsOK ts gs'
  | .optGroup p :: ts, gs =>
      ∃ g gs', gs = g :: gs' ∧ g.toList.all p ∧ capsOK ts gs'

/-- A prefix no longer than the maximal `p`-run consists of `p`-characters. -/
theorem take_all_of_le_takeWhile {p : Char → Bool} :
    ∀ (s : List Char) (k : Nat), k ≤ (s.takeWhile p).length → (s.take k).all p := by
  intro s
  induction s with
  | nil => intro k _; simp
  | cons x s ih =>
      intro k hk
      by_cases hp : p x
      · cases k with
        | zero => simp
        | succ j =>
            simp only [List.takeWhile_cons, hp, if_true, List.length_cons,
              Nat.succ_le_succ_iff] at hk
            simp only [List.take_succ_cons, List.all_cons, hp, Bool.true_and]
            exact ih j hk
      · rw [List.takeWhile_cons, if_neg hp] at hk
        simp only [List.length_nil, Nat.le_zero] at hk
        subst hk
        simp

/-- If trying the candidates succeeds, some candidate was chosen, the rest of
the pattern matched after it, and its capture (if any) heads the groups. -/
theorem tryCands_eq_some {next : List Char → Option (List String × List Char)}
    {cs : List (Option String × List Char)} {gs : List String} {fin : List Char}
    (h : tryCands next cs = some (gs, fin)) :
    ∃ cap rest gs', (cap, rest) ∈ cs ∧ next rest = some (gs', fin) ∧
      gs = (match cap with | some g => g :: gs' | none => gs') := by
  induction cs with
  | nil => simp [tryCands] at h
  | cons c cs ih =>
      obtain ⟨cap, rest⟩ := c
      rw [tryCands] at h
      cases hn : next rest with
      | some v =>
          obtain ⟨gs', fin'⟩ := v
          rw [hn] at h
          injection h with h
          injection h with h1 h2
          exact ⟨cap, rest, gs', List.mem_cons_self _ _, by rw [hn, h2], h1.symm⟩
      | none =>
          rw [hn] at h
          obtain ⟨cap', rest', gs', hm, hn', hg⟩ := ih h
          exact ⟨cap', rest', gs', List.mem_cons_of_mem _ hm, hn', hg⟩

/-- A candidate of a literal token captures nothing. -/
theorem candidates_lit {c : Char} {s : List Char} {cap : Option String}
    {rest : List Char} (h : (cap, rest) ∈ candidates (.lit c) s) : cap = none := by
  cases s with
  | nil => simp [candidates] at h
  | cons x s =>
      simp only [candidates] at h
      by_cases hx : x = c
      · simp [hx] at h; exact h.1
      · simp [hx] at h

/-- A candidate of a starred class captures nothing. -/
theorem candidates_star {p : Char → Bool} {s : List Char} {cap : Option String}
    {rest : List Char} (h : (cap, rest) ∈ candidates (.star p) s) : cap = none := by
  simp only [candidates, List.mem_map, List.mem_reverse] at h
  obtain ⟨k, _, hk⟩ := h
  exact (Prod.mk.injEq _ _ _ _ ▸ hk).1.symm

/-- A candidate of a plus class captures nothing. -/
theorem candidates_plus {p : Char → Bool} {s : List Char} {cap : Option String}
    {rest : List Char} (h : (cap, rest) ∈ candidates (.plus p) s) : cap = none := by
  simp only [candidates, List.mem_map, List.mem_reverse] at h
  obtain ⟨k, _, hk⟩ := h
  exact (Prod.mk.injEq _ _ _ _ ▸ hk).1.symm

/-- A candidate of a capturing group captures a non-empty run of its class. -/
theorem candidates_group {p : Char → Bool} {s : List Char} {cap : Option String}
    {rest : List Char} (h : (cap, rest) ∈ candidates (.group p) s) :
    ∃ g : String, cap = some g ∧ g ≠ "" ∧ g.toList.all p := by
  simp only [candidates, List.mem_map, List.mem_reverse, List.mem_range'_1] at h
  obtain ⟨k, ⟨hk1, hk2⟩, hk⟩ := h
  have hcap : cap = some (s.take k).asString := ((Prod.mk.injEq _ _ _ _).mp hk.symm).1
  refine ⟨(s.take k).asString, hcap, ?_, ?_⟩
  · intro he
    have hlist : s.take k = [] := congrArg String.toList he
    have hlen : (s.take k).length = 0 := by rw [hlist]; rfl
    rw [List.length_take] at hlen
    have hsl : (s.takeWhile p).length ≤ s.length := (List.takeWhile_sublist p).length_le
    omega
  · have : (s.take k).all p := take_all_of_le_takeWhile s k (by omega)
    exact this

/-- A candidate of an optional capturing group captures a run of its class
(empty when the group does not participate). -/
theorem candidates_optGroup {p : Char → Bool} {s : List Char} {cap : Option String}
    {rest : List Char} (h : (cap, rest) ∈ candidates (.optGroup p) s) :
    ∃ g : String, cap = some g ∧ g.toList.all p := by
  simp only [candidates, List.mem_append, List.mem_map, List.mem_reverse,
    List.mem_range'_1, List.mem_singleton] at h
  rcases h with ⟨k, ⟨hk1, hk2⟩, hk⟩ | h
  · have hcap : cap = some (s.take k).asString := ((Prod.mk.injEq _ _ _ _).mp hk.symm).1
    exact ⟨(s.take k).asString, hcap, take_all_of_le_takeWhile s k (by omega)⟩
  · have hcap : cap = some "" := ((Prod.mk.injEq _ _ _ _).mp h).1
    exact ⟨"", hcap, by simp⟩

/-- Every successful match satisfies the capture invariant. -/
theorem matchToks_capsOK : ∀ (ts : List Tok) (s : List Char) {gs : List String}
    {fin : List Char}, matchToks ts s = some (gs, fin) → capsOK ts gs := by
  intro ts
  induction ts with
  | nil =>
      intro s gs fin h
      rw [matchToks] at h
      injection h with h
      exact ((Prod.mk.injEq _ _ _ _).mp h).1.symm ▸ rfl
  | cons t ts ih =>
      intro s gs fin h
      rw [matchToks] at h
      obtain ⟨cap, rest, gs', hmem, hnext, hg⟩ := tryCands_eq_some h
      have hok := ih rest hnext
      cases t with
      | lit c =>
          have := candidates_lit hmem
          subst this
          simpa [capsOK, hg] using hok
      | star p =>
          have := candidates_star hmem
          subst this
          simpa [capsOK, hg] using hok
      | plus p =>
          have := candidates_plus hmem
          subst this
          simpa [capsOK, hg] using hok
      | group p =>
          obtain ⟨g, hcap, hne, hall⟩ := candidates_group hmem
          subst hcap
          exact ⟨g, gs', hg, hne, hall, hok⟩
      | optGroup p =>
          obtain ⟨g, hcap, hall⟩ := candidates_optGroup hmem
          subst hcap
          exact ⟨g, gs', hg, hall, hok⟩

/-- Every tuple of groups reported by the findall scan satisfies the capture
invariant (induction on the fuel). -/
theorem findAllAux_capsOK (toks : List Tok) :
    ∀ (fuel : Nat) (s : List Char), ∀ gs ∈ findAllAux toks fuel s, capsOK toks gs := by
  intro fuel
  induction fuel with
  | zero => intro s gs hg; simp [findAllAux] at hg
  | succ fuel ih =>
      intro s gs hg
      cases s with
      | nil =>
          rw [findAllAux] at hg
          split at hg
          next gs' rest heq =>
            simp only [List.mem_singleton] at hg
            subst hg
            exact matchToks_capsOK toks [] heq
          next => simp at hg
      | cons c s' =>
          rw [findAllAux] at hg
          split at hg
          next gs' rest heq =>
            split at hg
            next hr =>
              rcases List.mem_cons.mp hg with h1 | h2
              · subst h1; exact matchToks_capsOK toks _ heq
              · exact ih rest gs h2
            next hr =>
              rcases List.mem_cons.mp hg with h1 | h2
              · subst h1; exact matchToks_capsOK toks _ heq
              · exact ih s' gs h2
          next heq =>
            exact ih s' gs hg

/-- Every tuple of groups reported by `re.findall` satisfies the capture
invariant. -/
theorem pyFindAll_capsOK (toks : List Tok) (line : String) (gs : List String)
    (h : gs ∈ pyFindAll toks line) : capsOK toks gs :=
  findAllAux_capsOK toks (line.toList.length + 1) line.toList gs h

/-- Shape of the groups of a colon-pattern match: five captures; name, value,
min and max are non-empty runs of their classes; the optional unit is a run
of its class, possibly empty. -/
theorem capsOK_pattern1 {gs : List String} (h : capsOK pattern1 gs) :
    ∃ g0 g1 g2 g3 g4, gs = [g0, g1, g2, g3, g4] ∧
      g0 ≠ "" ∧ g0.toList.all nameClass = true ∧
      g1 ≠ "" ∧ g1.toList.all numClass = true ∧
      g2.toList.all unitClass = true ∧
      g3 ≠ "" ∧ g3.toList.all numClass = true ∧
      g4 ≠ "" ∧ g4.toList.all numClass = true := by
  simp only [pattern1, capsOK] at h
  obtain ⟨g0, r0, hgs, h0ne, h0all, g1, r1, hr0, h1ne, h1all, g2, r2, hr1, h2all,
    g3, r3, hr2, h3ne, h3all, g4, r4, hr3, h4ne, h4all, hr4⟩ := h
  subst hr4; subst hr3; subst hr2; subst hr1; subst hr0; subst hgs
  exact ⟨g0, g1, g2, g3, g4, rfl, h0ne, h0all, h1ne, h1all, h2all, h3ne, h3all, h4ne, h4all⟩

/-- Shape of the groups of a spaced-pattern match: five captures, all
non-empty runs of their classes — in particular the unit capture is
non-empty. -/
theorem capsOK_pattern2 {gs : List String} (h : capsOK pattern2 gs) :
    ∃ g0 g1 g2 g3 g4, gs = [g0, g1, g2, g3, g4] ∧
      g0 ≠ "" ∧ g0.toList.all nameClass = true ∧
      g1 ≠ "" ∧ g1.toList.all numClass = true ∧
      g2 ≠ "" ∧ g2.toList.all unitClass = true ∧
      g3 ≠ "" ∧ g3.toList.all numClass = true ∧
      g4 ≠ "" ∧ g4.toList.all numClass = true := by
  simp only [pattern2, capsOK] at h
  obtain ⟨g0, r0, hgs, h0ne, h0all, g1, r1, hr0, h1ne, h1all, g2, r2, hr1, h2ne, h2all,
    g3, r3, hr2, h3ne, h3all, g4, r4, hr3, h4ne, h4all, hr4⟩ := h
  subst hr4; subst hr3; subst hr2; subst hr1; subst hr0; subst hgs
  exact ⟨g0, g1, g2, g3, g4, rfl, h0ne, h0all, h1ne, h1all, h2ne, h2all, h3ne, h3all,
    h4ne, h4all⟩

/-! ## Facts about stripping and the character classes -/

/-- `dropWhile` is the identity on a list none of whose members satisfy the
predicate. -/
theorem dropWhile_eq_self_of_not {l : List Char} (h : ∀ c ∈ l, pySpace c = false) :
    l.dropWhile pySpace = l := by
  cases l with
  | nil => rfl
  | cons x xs =>
      rw [List.dropWhile_cons, if_neg (by simp [h x (List.mem_cons_self x xs)])]

/-- `str.strip()` is the identity on a string containing no whitespace. -/
theorem pyStrip_id {s : String} (h : ∀ c ∈ s.toList, pySpace c = false) :
    pyStrip s = s := by
  unfold pyStrip
  rw [dropWhile_eq_self_of_not h,
    dropWhile_eq_self_of_not (fun c hc => h c (List.mem_reverse.mp hc)),
    List.reverse_reverse]
  rfl

/-- No character of the numeric class `[0-9\.]` is whitespace. -/
theorem numClass_no_space {c : Char} (h : numClass c = true) : pySpace c = false := by
  by_contra hc
  have hsp : pySpace c = true := by revert hc; cases pySpace c <;> simp
  simp only [pySpace, Bool.or_eq_true, decide_eq_true_eq] at hsp
  rcases hsp with ((((h1 | h1) | h1) | h1) | h1) | h1 <;> subst h1 <;> exact absurd h (by decide)

/-- No character of the unit class `[a-zA-Z/%]` is whitespace. -/
theorem unitClass_no_space {c : Char} (h : unitClass c = true) : pySpace c = false := by
  by_contra hc
  have hsp : pySpace c = true := by revert hc; cases pySpace c <;> simp
  simp only [pySpace, Bool.or_eq_true, decide_eq_true_eq] at hsp
  rcases hsp with ((((h1 | h1) | h1) | h1) | h1) | h1 <;> subst h1 <;> exact absurd h (by decide)

/-! ## Tracing an output record back to its match -/

/-- Every record of a successful `processMatches` run comes from one of the
matches. -/
theorem processMatches_mem : ∀ {ms : List (List String)} {out : List LabTest},
    processMatches ms = .ok out → ∀ {r : LabTest}, r ∈ out →
      ∃ m ∈ ms, processMatch m = .ok r := by
  intro ms
  induction ms with
  | nil =>
      intro out h r hr
      rw [processMatches] at h
      injection h with h
      subst h
      simp at hr
  | cons m ms ih =>
      intro out h r hr
      rw [processMatches] at h
      split at h
      next e heq => exact absurd h (by simp)
      next t heq =>
        split at h
        next e heq2 => exact absurd h (by simp)
        next ts heq2 =>
          injection h with h
          subst h
          rcases List.mem_cons.mp hr with h1 | h2
          · exact ⟨m, List.mem_cons_self _ _, by rw [heq, h1]⟩
          · obtain ⟨m', hm', hpm⟩ := ih heq2 h2
            exact ⟨m', List.mem_cons_of_mem _ hm', hpm⟩

/-- Every record of a successful per-line extraction comes from a findall
match of one of the pattern families. -/
theorem extractPatterns_mem : ∀ {ps : List (List Tok)} {line : String}
    {out : List LabTest}, extractPatterns ps line = .ok out →
    ∀ {r : LabTest}, r ∈ out →
      ∃ p ∈ ps, ∃ m ∈ pyFindAll p line, processMatch m = .ok r := by
  intro ps
  induction ps with
  | nil =>
      intro line out h r hr
      rw [extractPatterns] at h
      injection h with h
      subst h
      simp at hr
  | cons p ps ih =>
      intro line out h r hr
      rw [extractPatterns] at h
      split at h
      next e heq => exact absurd h (by simp)
      next a heq =>
        split at h
        next e heq2 => exact absurd h (by simp)
        next b heq2 =>
          injection h with h
          subst h
          rcases List.mem_append.mp hr with h1 | h2
          · obtain ⟨m, hm, hpm⟩ := processMatches_mem heq h1
            exact ⟨p, List.mem_cons_self _ _, m, hm, hpm⟩
          · obtain ⟨p', hp', m, hm, hpm⟩ := ih heq2 h2
            exact ⟨p', List.mem_cons_of_mem _ hp', m, hm, hpm⟩

/-- Every record of a successful extraction comes from a findall match of one
of the two pattern families on one of the input lines. -/
theorem extract_lab_tests_mem : ∀ {lines : List String} {out : List LabTest},
    extract_lab_tests lines = .ok out → ∀ {r : LabTest}, r ∈ out →
      ∃ line ∈ lines, ∃ p ∈ patterns, ∃ m ∈ pyFindAll p line,
        processMatch m = .ok r := by
  intro lines
  induction lines with
  | nil =>
      intro out h r hr
      rw [extract_lab_tests] at h
      injection h with h
      subst h
      simp at hr
  | cons line rest ih =>
      intro out h r hr
      rw [extract_lab_tests] at h
      split at h
      next e heq => exact absurd h (by simp)
      next a heq =>
        split at h
        next e heq2 => exact absurd h (by simp)
        next b heq2 =>
          injection h with h
          subst h
          rcases List.mem_append.mp hr with h1 | h2
          · obtain ⟨p, hp, m, hm, hpm⟩ := extractPatterns_mem heq h1
            exact ⟨line, List.mem_cons_self _ _, p, hp, m, hm, hpm⟩
          · obtain ⟨line', hl', p, hp, m, hm, hpm⟩ := ih heq2 h2
            exact ⟨line', List.mem_cons_of_mem _ hl', p, hp, m, hm, hpm⟩

/-- Characterization of a successful `processMatch`: the match has five
groups, both bounds parse to floats, and every field of the record is as the
loop body computes it. -/
theorem processMatch_ok {m : List String} {r : LabTest}
    (h : processMatch m = .ok r) :
    ∃ g0 g1 g2 g3 g4, ∃ qmin qmax : PyFloat,
      m = [g0, g1, g2, g3, g4] ∧
      pyFloat? (pyStrip g3) = some qmin ∧
      pyFloat? (pyStrip g4) = some qmax ∧
      r.test_name = pyStrip g0 ∧
      r.test_value = pyStrip g1 ∧
      r.test_unit = (if g2 = "" then "" else pyStrip g2) ∧
      r.bio_reference_range = pyFloatRepr qmin ++ "-" ++ pyFloatRepr qmax ∧
      r.lab_test_out_of_range =
        (match pyFloat? (pyStrip g1) with
         | some q => q.lt qmin || qmax.lt q
         | none => false) := by
  rcases m with _ | ⟨g0, _ | ⟨g1, _ | ⟨g2, _ | ⟨g3, _ | ⟨g4, _ | ⟨g5, m⟩⟩⟩⟩⟩⟩ <;>
    first
    | (simp only [processMatch] at h
       split at h
       next heq3 => exact absurd h (by simp)
       next qmin heq3 =>
         split at h
         next heq4 => exact absurd h (by simp)
         next qmax heq4 =>
           injection h with h
           refine ⟨g0, g1, g2, g3, g4, qmin, qmax, rfl, heq3, heq4, ?_, ?_, ?_, ?_, ?_⟩ <;>
             rw [← h])
    | simp [processMatch] at h

/-! ## The numeric order on parsed floats -/

/-- The boolean order on parsed floats agrees with the order of their
rational values. -/
theorem PyFloat.lt_iff {a b : PyFloat} : a.lt b = true ↔ a.toRat < b.toRat := by
  simp only [PyFloat.lt, PyFloat.toRat, decide_eq_true_eq]
  rw [div_lt_div_iff₀ (by positivity) (by positivity)]
  exact_mod_cast Iff.rfl

/-- `str.strip()` is the identity on a string all of whose characters lie in
a whitespace-free class. -/
theorem pyStrip_id_of_all {s : String} {p : Char → Bool}
    (hp : ∀ c, p c = true → pySpace c = false) (h : s.toList.all p = true) :
    pyStrip s = s :=
  pyStrip_id (fun c hc => hp c (List.all_eq_true.mp h c hc))

/-! ## The claims -/

/-- C6: the single input line `"WBC: 15.2 (4.5-11.0)"` produces exactly one
record, with name `"WBC"`, value `"15.2"`, empty unit, reference range
`"4.5-11.0"`, and the out-of-range flag set (15.2 > 11.0). -/
theorem extract_scenario_wbc :
    extract_lab_tests ["WBC: 15.2 (4.5-11.0)"] =
      .ok [{ test_name := "WBC", test_value := "15.2",
             bio_reference_range := "4.5-11.0", test_unit := "",
             lab_test_out_of_range := true }] := rfl

/-- Two runs of the extractor on the same input, as a pair. -/
def runExtractionTwice (lines : List String) :
    Except String (List LabTest) × Except String (List LabTest) :=
  (extract_lab_tests lines, extract_lab_tests lines)

/-- C8: extraction is deterministic and idempotent — running it twice on the
same sequence of text lines yields the same result, and in particular two
identical ordered record lists on success.  (The extractor is a pure
function of its input: it reads no state and mutates none.) -/
theorem extract_idempotent (lines : List String) :
    (runExtractionTwice lines).1 = (runExtractionTwice lines).2 ∧
    ∀ out₁ out₂ : List LabTest, (runExtractionTwice lines).1 = .ok out₁ →
      (runExtractionTwice lines).2 = .ok out₂ → out₁ = out₂ := by
  refine ⟨rfl, ?_⟩
  intro out₁ out₂ h₁ h₂
  have h₂' : (runExtractionTwice lines).1 = .ok out₂ := h₂
  rw [h₁] at h₂'
  injection h₂'

/-- Witness for C8 on a concrete line. -/
theorem extract_idempotent_witness :
    (runExtractionTwice ["Glucose: 85 mg/dL (70-99)"]).1 =
      (runExtractionTwice ["Glucose: 85 mg/dL (70-99)"]).2 ∧
    ([{ test_name := "Glucose", test_value := "85",
        bio_reference_range := "70.0-99.0", test_unit := "mg/dL",
        lab_test_out_of_range := false } ] : List LabTest) =
      [{ test_name := "Glucose", test_value := "85",
         bio_reference_range := "70.0-99.0", test_unit := "mg/dL",
         lab_test_out_of_range := false } ] :=
  ⟨(extract_idempotent ["Glucose: 85 mg/dL (70-99)"]).1,
   (extract_idempotent ["Glucose: 85 mg/dL (70-99)"]).2 _ _ rfl rfl⟩

/-- C2 counterexample: on the line `"A: 1 (1..2-3)"` the colon family
captures `"1..2"` as min — a captured numeric substring with two dots — and
the subsequent float parse of min fails, aborting the extraction with an
error.  This refutes both halves of the claim (at most one dot; parse cannot
fail). -/
theorem numeric_capture_two_dots :
    pyFindAll pattern1 "A: 1 (1..2-3)" = [["A", "1", "", "1..2", "3"]] ∧
    ("1..2").toList.count '.' = 2 ∧
    pyFloat? "1..2" = none ∧
    extract_lab_tests ["A: 1 (1..2-3)"] =
      .error "could not convert string to float: 1..2" :=
  ⟨rfl, rfl, rfl, rfl⟩

/-- C2 amended: every substring captured as value, min or max is a non-empty
string over digits and `.` — but it may contain more than one dot (or no
digit), so the float parse of min or max can fail. -/
theorem numeric_captures_digits_and_dots (line : String) (m : List String)
    (hm : m ∈ pyFindAll pattern1 line ∨ m ∈ pyFindAll pattern2 line) :
    ∃ g0 g1 g2 g3 g4, m = [g0, g1, g2, g3, g4] ∧
      g1 ≠ "" ∧ (∀ c ∈ g1.toList, numClass c = true) ∧
      g3 ≠ "" ∧ (∀ c ∈ g3.toList, numClass c = true) ∧
      g4 ≠ "" ∧ (∀ c ∈ g4.toList, numClass c = true) := by
  rcases hm with hm | hm
  · obtain ⟨g0, g1, g2, g3, g4, hgs, _, _, h1ne, h1all, _, h3ne, h3all, h4ne, h4all⟩ :=
      capsOK_pattern1 (pyFindAll_capsOK pattern1 line m hm)
    exact ⟨g0, g1, g2, g3, g4, hgs, h1ne, List.all_eq_true.mp h1all,
      h3ne, List.all_eq_true.mp h3all, h4ne, List.all_eq_true.mp h4all⟩
  · obtain ⟨g0, g1, g2, g3, g4, hgs, _, _, h1ne, h1all, _, _, h3ne, h3all, h4ne, h4all⟩ :=
      capsOK_pattern2 (pyFindAll_capsOK pattern2 line m hm)
    exact ⟨g0, g1, g2, g3, g4, hgs, h1ne, List.all_eq_true.mp h1all,
      h3ne, List.all_eq_true.mp h3all, h4ne, List.all_eq_true.mp h4all⟩

/-- Witness for the amended C2, on the same line as the counterexample. -/
theorem numeric_captures_digits_and_dots_witness :
    ∃ g0 g1 g2 g3 g4, (["A", "1", "", "1..2", "3"] : List String) = [g0, g1, g2, g3, g4] ∧
      g1 ≠ "" ∧ (∀ c ∈ g1.toList, numClass c = true) ∧
      g3 ≠ "" ∧ (∀ c ∈ g3.toList, numClass c = true) ∧
      g4 ≠ "" ∧ (∀ c ∈ g4.toList, numClass c = true) :=
  numeric_captures_digits_and_dots "A: 1 (1..2-3)" ["A", "1", "", "1..2", "3"]
    (Or.inl (by rw [show pyFindAll pattern1 "A: 1 (1..2-3)" = [["A", "1", "", "1..2", "3"]] from rfl]; exact List.mem_singleton.mpr rfl))

/-- C10: the extractor performs no `min ≤ max` sanity check.  For any match
whose parsed bounds are inverted (`min > max`), a record is still produced,
its reference range renders the bounds in that inverted order, and every
value that parses as a float is flagged out of range (any `q` has `q < min`
or `q > max` when `max < min`). -/
theorem inverted_range_always_out (g0 g1 g2 g3 g4 : String) (qmin qmax : PyFloat)
    (h3 : pyFloat? (pyStrip g3) = some qmin)
    (h4 : pyFloat? (pyStrip g4) = some qmax)
    (hinv : qmax.toRat < qmin.toRat) :
    ∃ r : LabTest, processMatch [g0, g1, g2, g3, g4] = .ok r ∧
      r.bio_reference_range = pyFloatRepr qmin ++ "-" ++ pyFloatRepr qmax ∧
      ∀ q : PyFloat, pyFloat? (pyStrip g1) = some q →
        r.lab_test_out_of_range = true := by
  refine ⟨{ test_name := pyStrip g0, test_value := pyStrip g1,
            bio_reference_range := pyFloatRepr qmin ++ "-" ++ pyFloatRepr qmax,
            test_unit := if g2 = "" then "" else pyStrip g2,
            lab_test_out_of_range :=
              match pyFloat? (pyStrip g1) with
              | some q => q.lt qmin || qmax.lt q
              | none => false }, ?_, rfl, ?_⟩
  · simp only [processMatch, h3, h4]
  · intro q hq
    simp only [hq]
    rcases lt_or_le q.toRat qmin.toRat with hlt | hge
    · exact Bool.or_eq_true_iff.mpr (Or.inl (PyFloat.lt_iff.mpr hlt))
    · exact Bool.or_eq_true_iff.mpr (Or.inr (PyFloat.lt_iff.mpr (lt_of_lt_of_le hinv hge)))

/-- Witness for C10: the match of `"A: 5 (9-2)"`, with bounds 9.0 and 2.0. -/
theorem inverted_range_always_out_witness :
    (PyFloat.toRat ⟨2, 0⟩ < PyFloat.toRat ⟨9, 0⟩) ∧
    (∃ r : LabTest, processMatch ["A", "5", "", "9", "2"] = .ok r ∧
      r.bio_reference_range = pyFloatRepr ⟨9, 0⟩ ++ "-" ++ pyFloatRepr ⟨2, 0⟩ ∧
      ∀ q : PyFloat, pyFloat? (pyStrip "5") = some q →
        r.lab_test_out_of_range = true) :=
  ⟨by norm_num [PyFloat.toRat],
   inverted_range_always_out "A" "5" "" "9" "2" ⟨9, 0⟩ ⟨2, 0⟩ rfl rfl
     (by norm_num [PyFloat.toRat])⟩

/-- C1 counterexample: on `"A: 5 (5-2)"` the parsed value 5.0 equals the
parsed min 5.0 — a boundary value — yet `lab_test_out_of_range` is true,
because the bounds are inverted (5 > 2) and the value exceeds max.  The
claim's clause "boundary values (value equal to min or to max) yield false"
is therefore false as stated. -/
theorem boundary_value_flag_true :
    extract_lab_tests ["A: 5 (5-2)"] =
      .ok [{ test_name := "A", test_value := "5",
             bio_reference_range := "5.0-2.0", test_unit := "",
             lab_test_out_of_range := true }] ∧
    pyFindAll pattern1 "A: 5 (5-2)" = [["A", "5", "", "5", "2"]] ∧
    pyFloat? "5" = some ⟨5, 0⟩ :=
  ⟨rfl, rfl, rfl⟩

/-- C1 amended: for every record the extractor produces, the out-of-range
flag is true iff the value parses as a float strictly below the parsed min
or strictly above the parsed max; it is false when the value fails to parse;
and a boundary value (equal to min or to max) yields false provided
`min ≤ max` — with inverted bounds a boundary value is flagged true
(see the counterexample and C10). -/
theorem extract_out_of_range_iff (lines : List String) (out : List LabTest)
    (r : LabTest) (hok : extract_lab_tests lines = .ok out) (hr : r ∈ out) :
    ∃ qmin qmax : PyFloat,
      r.bio_reference_range = pyFloatRepr qmin ++ "-" ++ pyFloatRepr qmax ∧
      (r.lab_test_out_of_range = true ↔
        ∃ q : PyFloat, pyFloat? r.test_value = some q ∧
          (q.toRat < qmin.toRat ∨ qmax.toRat < q.toRat)) ∧
      (pyFloat? r.test_value = none → r.lab_test_out_of_range = false) ∧
      (∀ q : PyFloat, pyFloat? r.test_value = some q →
        qmin.toRat ≤ qmax.toRat →
        (q.toRat = qmin.toRat ∨ q.toRat = qmax.toRat) →
        r.lab_test_out_of_range = false) := by
  obtain ⟨line, _, p, _, m, _, hpm⟩ := extract_lab_tests_mem hok hr
  obtain ⟨g0, g1, g2, g3, g4, qmin, qmax, hm, h3, h4, hn, hv, hu, hb, ho⟩ :=
    processMatch_ok hpm
  refine ⟨qmin, qmax, hb, ?_, ?_, ?_⟩
  · rw [ho, hv]
    cases hq : pyFloat? (pyStrip g1) with
    | none => simp
    | some q =>
        simp only [Option.some.injEq]
        constructor
        · intro hflag
          refine ⟨q, rfl, ?_⟩
          rcases Bool.or_eq_true_iff.mp hflag with h1 | h2
          · exact Or.inl (PyFloat.lt_iff.mp h1)
          · exact Or.inr (PyFloat.lt_iff.mp h2)
        · rintro ⟨q', hq', hlt⟩
          subst hq'
          rcases hlt with h | h
          · exact Bool.or_eq_true_iff.mpr (Or.inl (PyFloat.lt_iff.mpr h))
          · exact Bool.or_eq_true_iff.mpr (Or.inr (PyFloat.lt_iff.mpr h))
  · rw [ho, hv]
    intro hnone
    simp [hnone]
  · intro q hq hle hbd
    rw [hv] at hq
    rw [ho]
    simp only [hq]
    have h1 : q.lt qmin = false := by
      rw [Bool.eq_false_iff]
      intro hlt
      have := PyFloat.lt_iff.mp hlt
      rcases hbd with h | h <;> rw [h] at this <;> linarith
    have h2 : qmax.lt q = false := by
      rw [Bool.eq_false_iff]
      intro hlt
      have := PyFloat.lt_iff.mp hlt
      rcases hbd with h | h <;> rw [h] at this <;> linarith
    rw [h1, h2]
    rfl

/-- Witness for the amended C1: the record of `"WBC: 15.2 (4.5-11.0)"`. -/
theorem extract_out_of_range_iff_witness :
    ∃ qmin qmax : PyFloat,
      (LabTest.mk "WBC" "15.2" "4.5-11.0" "" true).bio_reference_range =
        pyFloatRepr qmin ++ "-" ++ pyFloatRepr qmax ∧
      ((LabTest.mk "WBC" "15.2" "4.5-11.0" "" true).lab_test_out_of_range = true ↔
        ∃ q : PyFloat,
          pyFloat? (LabTest.mk "WBC" "15.2" "4.5-11.0" "" true).test_value = some q ∧
          (q.toRat < qmin.toRat ∨ qmax.toRat < q.toRat)) ∧
      (pyFloat? (LabTest.mk "WBC" "15.2" "4.5-11.0" "" true).test_value = none →
        (LabTest.mk "WBC" "15.2" "4.5-11.0" "" true).lab_test_out_of_range = false) ∧
      (∀ q : PyFloat,
        pyFloat? (LabTest.mk "WBC" "15.2" "4.5-11.0" "" true).test_value = some q →
        qmin.toRat ≤ qmax.toRat →
        (q.toRat = qmin.toRat ∨ q.toRat = qmax.toRat) →
        (LabTest.mk "WBC" "15.2" "4.5-11.0" "" true).lab_test_out_of_range = false) :=
  extract_out_of_range_iff ["WBC: 15.2 (4.5-11.0)"]
    [LabTest.mk "WBC" "15.2" "4.5-11.0" "" true]
    (LabTest.mk "WBC" "15.2" "4.5-11.0" "" true) rfl (List.mem_singleton.mpr rfl)

/-- C4: for every record the extractor produces, `bio_reference_range` is the
default float rendering of the parsed min, a literal `-`, and the default
float rendering of the parsed max. -/
theorem bio_reference_range_format (lines : List String) (out : List LabTest)
    (r : LabTest) (hok : extract_lab_tests lines = .ok out) (hr : r ∈ out) :
    ∃ g3 g4 : String, ∃ qmin qmax : PyFloat,
      pyFloat? (pyStrip g3) = some qmin ∧
      pyFloat? (pyStrip g4) = some qmax ∧
      r.bio_reference_range = pyFloatRepr qmin ++ "-" ++ pyFloatRepr qmax := by
  obtain ⟨line, _, p, _, m, _, hpm⟩ := extract_lab_tests_mem hok hr
  obtain ⟨g0, g1, g2, g3, g4, qmin, qmax, hm, h3, h4, _, _, _, hb, _⟩ :=
    processMatch_ok hpm
  exact ⟨g3, g4, qmin, qmax, h3, h4, hb⟩

/-- Witness for C4: the record of `"Glucose: 85 mg/dL (70-99)"`, whose bounds
parse from `"70"` and `"99"` and render with the trailing `.0` preserved as
`"70.0-99.0"`. -/
theorem bio_reference_range_format_witness :
    (∃ g3 g4 : String, ∃ qmin qmax : PyFloat,
      pyFloat? (pyStrip g3) = some qmin ∧
      pyFloat? (pyStrip g4) = some qmax ∧
      (LabTest.mk "Glucose" "85" "70.0-99.0" "mg/dL" false).bio_reference_range =
        pyFloatRepr qmin ++ "-" ++ pyFloatRepr qmax) ∧
    pyFloatRepr ⟨70, 0⟩ = "70.0" ∧ pyFloatRepr ⟨99, 0⟩ = "99.0" :=
  ⟨bio_reference_range_format ["Glucose: 85 mg/dL (70-99)"]
     [LabTest.mk "Glucose" "85" "70.0-99.0" "mg/dL" false]
     (LabTest.mk "Glucose" "85" "70.0-99.0" "mg/dL" false) rfl
     (List.mem_singleton.mpr rfl),
   rfl, rfl⟩

/-- Componentwise equality of two five-element lists. -/
theorem list5_inj {a0 a1 a2 a3 a4 b0 b1 b2 b3 b4 : String}
    (h : ([a0, a1, a2, a3, a4] : List String) = [b0, b1, b2, b3, b4]) :
    a0 = b0 ∧ a1 = b1 ∧ a2 = b2 ∧ a3 = b3 ∧ a4 = b4 := by
  simp only [List.cons.injEq, and_true] at h
  exact h

/-- C7: a record produced by a match of the spaced (second) pattern family
has a non-empty `test_unit` — its unit group is mandatory; and for the colon
(first) family the unit is empty exactly when the optional unit group did not
participate in the match (captured `""`). -/
theorem unit_empty_only_colon_family (line : String) (m : List String) (r : LabTest) :
    (m ∈ pyFindAll pattern2 line → processMatch m = .ok r → r.test_unit ≠ "") ∧
    (m ∈ pyFindAll pattern1 line → processMatch m = .ok r →
      (r.test_unit = "" ↔ ∃ g0 g1 g3 g4, m = [g0, g1, "", g3, g4])) := by
  constructor
  · intro hm hok
    obtain ⟨a0, a1, a2, a3, a4, hgs, _, _, _, _, h2ne, h2all, _, _, _, _⟩ :=
      capsOK_pattern2 (pyFindAll_capsOK pattern2 line m hm)
    obtain ⟨g0, g1, g2, g3, g4, qmin, qmax, hm', _, _, _, _, hu, _, _⟩ :=
      processMatch_ok hok
    rw [hgs] at hm'
    obtain ⟨e0, e1, e2, e3, e4⟩ := list5_inj hm'
    subst e2
    rw [hu, if_neg h2ne, pyStrip_id_of_all (fun c hc => unitClass_no_space hc) h2all]
    exact h2ne
  · intro hm hok
    obtain ⟨a0, a1, a2, a3, a4, hgs, _, _, _, _, h2all, _, _, _, _⟩ :=
      capsOK_pattern1 (pyFindAll_capsOK pattern1 line m hm)
    obtain ⟨g0, g1, g2, g3, g4, qmin, qmax, hm', _, _, _, _, hu, _, _⟩ :=
      processMatch_ok hok
    rw [hgs] at hm'
    obtain ⟨e0, e1, e2, e3, e4⟩ := list5_inj hm'
    subst e0; subst e1; subst e2; subst e3; subst e4
    constructor
    · intro hempty
      by_cases h2 : a2 = ""
      · subst h2; exact ⟨a0, a1, a3, a4, hgs⟩
      · rw [hu, if_neg h2,
          pyStrip_id_of_all (fun c hc => unitClass_no_space hc) h2all] at hempty
        exact absurd hempty h2
    · rintro ⟨g0', g1', g3', g4', hm2⟩
      rw [hgs] at hm2
      obtain ⟨_, _, e2', _, _⟩ := list5_inj hm2
      rw [hu, e2']
      rfl

/-- Witness for C7 on the two scenario lines. -/
theorem unit_empty_only_colon_family_witness :
    ((["Hemoglobin", "16.5", "g/dL", "13.5", "17.5"] : List String) ∈
        pyFindAll pattern2 "Hemoglobin 16.5 g/dL 13.5 - 17.5" →
      processMatch ["Hemoglobin", "16.5", "g/dL", "13.5", "17.5"] =
        .ok (LabTest.mk "Hemoglobin" "16.5" "13.5-17.5" "g/dL" false) →
      (LabTest.mk "Hemoglobin" "16.5" "13.5-17.5" "g/dL" false).test_unit ≠ "") ∧
    ((LabTest.mk "Hemoglobin" "16.5" "13.5-17.5" "g/dL" false).test_unit ≠ "") :=
  ⟨(unit_empty_only_colon_family "Hemoglobin 16.5 g/dL 13.5 - 17.5"
      ["Hemoglobin", "16.5", "g/dL", "13.5", "17.5"]
      (LabTest.mk "Hemoglobin" "16.5" "13.5-17.5" "g/dL" false)).1,
   (unit_empty_only_colon_family "Hemoglobin 16.5 g/dL 13.5 - 17.5"
      ["Hemoglobin", "16.5", "g/dL", "13.5", "17.5"]
      (LabTest.mk "Hemoglobin" "16.5" "13.5-17.5" "g/dL" false)).1
     (by rw [show pyFindAll pattern2 "Hemoglobin 16.5 g/dL 13.5 - 17.5" =
           [["Hemoglobin", "16.5", "g/dL", "13.5", "17.5"]] from rfl]
         exact List.mem_singleton.mpr rfl)
     rfl⟩

/-- C9: the `test_value` of every record the extractor produces is a
non-empty string of digits and dots, contains no whitespace, is fixed by
`strip`, and is the captured value group verbatim. -/
theorem test_value_verbatim (lines : List String) (out : List LabTest)
    (r : LabTest) (hok : extract_lab_tests lines = .ok out) (hr : r ∈ out) :
    r.test_value ≠ "" ∧
    (∀ c ∈ r.test_value.toList, numClass c = true) ∧
    (∀ c ∈ r.test_value.toList, pySpace c = false) ∧
    pyStrip r.test_value = r.test_value ∧
    (∃ line ∈ lines, ∃ p ∈ patterns, ∃ m ∈ pyFindAll p line, ∃ g0 g2 g3 g4,
      m = [g0, r.test_value, g2, g3, g4]) := by
  obtain ⟨line, hline, p, hp, m, hmm, hpm⟩ := extract_lab_tests_mem hok hr
  obtain ⟨g0, g1, g2, g3, g4, qmin, qmax, hm, _, _, _, hv, _, _, _⟩ :=
    processMatch_ok hpm
  have hcaps := pyFindAll_capsOK p line m hmm
  have hval : g1 ≠ "" ∧ g1.toList.all numClass = true := by
    have hp' : p = pattern1 ∨ p = pattern2 := by
      simpa [patterns] using hp
    rcases hp' with h1 | h1
    · subst h1
      obtain ⟨a0, a1, a2, a3, a4, hgs, _, _, h1ne, h1all, _, _, _, _, _⟩ :=
        capsOK_pattern1 hcaps
      rw [hm] at hgs
      obtain ⟨_, e1, _, _, _⟩ := list5_inj hgs
      rw [e1]
      exact ⟨h1ne, h1all⟩
    · subst h1
      obtain ⟨a0, a1, a2, a3, a4, hgs, _, _, h1ne, h1all, _, _, _, _, _, _⟩ :=
        capsOK_pattern2 hcaps
      rw [hm] at hgs
      obtain ⟨_, e1, _, _, _⟩ := list5_inj hgs
      rw [e1]
      exact ⟨h1ne, h1all⟩
  obtain ⟨h1ne, h1all⟩ := hval
  have hstrip : pyStrip g1 = g1 :=
    pyStrip_id_of_all (fun c hc => numClass_no_space hc) h1all
  rw [hv, hstrip]
  refine ⟨h1ne, ?_, ?_, ?_, line, hline, p, hp, m, hmm, g0, g2, g3, g4, hm⟩
  · exact List.all_eq_true.mp h1all
  · exact fun c hc => numClass_no_space (List.all_eq_true.mp h1all c hc)
  · exact hstrip

/-- Decomposition of the per-line inner loop: both pattern families are
evaluated on the line, in fixed order, and their record lists concatenated. -/
theorem extractPatterns_two {line : String} {a : List LabTest}
    (h : extractPatterns patterns line = .ok a) :
    ∃ a1 a2 : List LabTest,
      processMatches (pyFindAll pattern1 line) = .ok a1 ∧
      processMatches (pyFindAll pattern2 line) = .ok a2 ∧
      a = a1 ++ a2 := by
  rw [show patterns = [pattern1, pattern2] from rfl] at h
  rw [extractPatterns] at h
  split at h
  next e heq => exact absurd h (by simp)
  next a1 heq =>
    split at h
    next e heq2 => exact absurd h (by simp)
    next b heq2 =>
      injection h with h
      rw [extractPatterns] at heq2
      split at heq2
      next e heq3 => exact absurd heq2 (by simp)
      next a2 heq3 =>
        rw [extractPatterns] at heq2
        split at heq2
        next e heq4 => exact absurd heq2 (by simp)
        next b2 heq4 =>
          injection heq2 with heq2
          injection heq4 with heq4
          subst heq4
          subst heq2
          exact ⟨a1, a2, heq, heq3, by rw [← h, List.append_nil]⟩

/-- C5: on success the output list is the concatenation, over the input
lines in order, of per-line blocks; each block is the colon-family records
followed by the spaced-family records of that line (both families evaluated
against every line); and — as the concrete conjuncts show on a line matched
by both families — one line can contribute records from both families, with
no deduplication. -/
theorem extraction_order :
    (∀ (lines : List String) (out : List LabTest),
      extract_lab_tests lines = .ok out →
      ∃ perLine : List (List LabTest),
        out = perLine.flatten ∧
        perLine.length = lines.length ∧
        ∀ (i : Nat) (hi : i < lines.length) (hi' : i < perLine.length),
          ∃ a b : List LabTest,
            processMatches (pyFindAll pattern1 (lines.get ⟨i, hi⟩)) = .ok a ∧
            processMatches (pyFindAll pattern2 (lines.get ⟨i, hi⟩)) = .ok b ∧
            perLine.get ⟨i, hi'⟩ = a ++ b) ∧
    processMatches
        (pyFindAll pattern1 "Glucose: 85 mg/dL (70-99) Hemoglobin 16.5 g/dL 13.5 - 17.5") =
      .ok [LabTest.mk "Glucose" "85" "70.0-99.0" "mg/dL" false] ∧
    processMatches
        (pyFindAll pattern2 "Glucose: 85 mg/dL (70-99) Hemoglobin 16.5 g/dL 13.5 - 17.5") =
      .ok [LabTest.mk ") Hemoglobin" "16.5" "13.5-17.5" "g/dL" false] ∧
    extract_lab_tests ["Glucose: 85 mg/dL (70-99) Hemoglobin 16.5 g/dL 13.5 - 17.5"] =
      .ok [LabTest.mk "Glucose" "85" "70.0-99.0" "mg/dL" false,
           LabTest.mk ") Hemoglobin" "16.5" "13.5-17.5" "g/dL" false] := by
  refine ⟨?_, rfl, rfl, rfl⟩
  intro lines
  induction lines with
  | nil =>
      intro out h
      rw [extract_lab_tests] at h
      injection h with h
      subst h
      exact ⟨[], rfl, rfl, fun i hi => absurd hi (by simp)⟩
  | cons line rest ih =>
      intro out h
      rw [extract_lab_tests] at h
      split at h
      next e heq => exact absurd h (by simp)
      next a heq =>
        split at h
        next e heq2 => exact absurd h (by simp)
        next b heq2 =>
          injection h with h
          subst h
          obtain ⟨perLine, hout, hlen, hidx⟩ := ih b heq2
          obtain ⟨a1, a2, hp1, hp2, ha⟩ := extractPatterns_two heq
          refine ⟨a :: perLine, by rw [hout, List.flatten_cons], by simp [hlen], ?_⟩
          intro i hi hi'
          cases i with
          | zero => exact ⟨a1, a2, hp1, hp2, ha⟩
          | succ j =>
              exact hidx j (by simpa using hi) (by simpa using hi')

/-- Witness for C5 on a concrete one-line input. -/
theorem extraction_order_witness :
    ∃ perLine : List (List LabTest),
      ([LabTest.mk "WBC" "15.2" "4.5-11.0" "" true] : List LabTest) = perLine.flatten ∧
      perLine.length = (["WBC: 15.2 (4.5-11.0)"] : List String).length ∧
      ∀ (i : Nat) (hi : i < (["WBC: 15.2 (4.5-11.0)"] : List String).length)
        (hi' : i < perLine.length),
        ∃ a b : List LabTest,
          processMatches
              (pyFindAll pattern1 ((["WBC: 15.2 (4.5-11.0)"] : List String).get ⟨i, hi⟩)) =
            .ok a ∧
          processMatches
              (pyFindAll pattern2 ((["WBC: 15.2 (4.5-11.0)"] : List String).get ⟨i, hi⟩)) =
            .ok b ∧
          perLine.get ⟨i, hi'⟩ = a ++ b :=
  extraction_order.1 ["WBC: 15.2 (4.5-11.0)"]
    [LabTest.mk "WBC" "15.2" "4.5-11.0" "" true] rfl

/-- C3: the handler's failure policy.  The response is HTTP 500 with the
failure envelope carrying exactly the raised message — and nothing else (the
failure body has no `recognized_text` or `data` field by construction) — if
and only if some step of the pipeline raised; and an undecodable upload
(decode returns no data) yields that envelope with the decoder's non-empty
error message. -/
theorem handler_failure_envelope {Img : Type} (imdecode : List Nat → Option Img)
    (cvtColor adaptiveThreshold morphologyEx : Img → Img)
    (readtext : Img → Except String (List String)) (contents : List Nat) :
    (∀ e : String,
      runPipeline imdecode cvtColor adaptiveThreshold morphologyEx readtext contents =
          .error e ↔
        get_lab_tests imdecode cvtColor adaptiveThreshold morphologyEx readtext contents =
          { status_code := 500, body := .failure e }) ∧
    (imdecode contents = none →
      get_lab_tests imdecode cvtColor adaptiveThreshold morphologyEx readtext contents =
          { status_code := 500, body := .failure decodeErrorMsg } ∧
        decodeErrorMsg ≠ "") := by
  constructor
  · intro e
    unfold get_lab_tests
    cases hp : runPipeline imdecode cvtColor adaptiveThreshold morphologyEx readtext contents with
    | ok v =>
        obtain ⟨res, tests⟩ := v
        simp
    | error e' =>
        simp [ApiResponse.mk.injEq, ApiBody.failure.injEq]
  · intro hdec
    refine ⟨?_, by decide⟩
    unfold get_lab_tests runPipeline preprocess_image
    rw [hdec]

/-- Witness for C3: an upload whose bytes do not decode. -/
theorem handler_failure_envelope_witness :
    get_lab_tests (fun _ => (none : Option Unit)) id id id (fun _ => .ok []) [] =
        { status_code := 500, body := .failure decodeErrorMsg } ∧
      decodeErrorMsg ≠ "" :=
  (handler_failure_envelope (fun _ => (none : Option Unit)) id id id
    (fun _ => .ok []) []).2 rfl

/-- Witness for C9: the record of `"WBC: 15.2 (4.5-11.0)"`. -/
theorem test_value_verbatim_witness :
    (LabTest.mk "WBC" "15.2" "4.5-11.0" "" true).test_value ≠ "" ∧
    (∀ c ∈ (LabTest.mk "WBC" "15.2" "4.5-11.0" "" true).test_value.toList,
      numClass c = true) ∧
    (∀ c ∈ (LabTest.mk "WBC" "15.2" "4.5-11.0" "" true).test_value.toList,
      pySpace c = false) ∧
    pyStrip (LabTest.mk "WBC" "15.2" "4.5-11.0" "" true).test_value =
      (LabTest.mk "WBC" "15.2" "4.5-11.0" "" true).test_value ∧
    (∃ line ∈ (["WBC: 15.2 (4.5-11.0)"] : List String), ∃ p ∈ patterns,
      ∃ m ∈ pyFindAll p line, ∃ g0 g2 g3 g4,
        m = [g0, (LabTest.mk "WBC" "15.2" "4.5-11.0" "" true).test_value, g2, g3, g4]) :=
  test_value_verbatim ["WBC: 15.2 (4.5-11.0)"]
    [LabTest.mk "WBC" "15.2" "4.5-11.0" "" true]
    (LabTest.mk "WBC" "15.2" "4.5-11.0" "" true) rfl (List.mem_singleton.mpr rfl)
